import Mathlib

/-!
# Verification of the education-dashboard data pipeline

A shallow embedding of the data pipeline of `src/streamlit_app.py`:
the load-time null-drop, the range/checkbox filter, the groupby-mean
aggregation with post-grouping key normalization, and the multiselect
projection.  Tables are lists of records; a numeric cell is `Option ℚ`
with `none` playing the role of a null/NaN cell, so that the pandas
comparison semantics (any comparison against NaN is false) and the
skip-null mean are modelled explicitly.
-/

set_option autoImplicit false

namespace EduApp

/-- One row of the source table (the CSV columns used by the app).
A numeric cell is `Option ℚ`: `none` models a null/NaN cell. -/
structure Record where
  refArea : String
  dropoutPct : Option ℚ
  illiteracyPct : Option ℚ
  universityPct : Option ℚ
  higherEducationPct : Option ℚ
deriving DecidableEq

/-- The load-time null-drop of line 8:
`df.dropna(subset=["PercentageofEducationlevelofresidents-highereducation"])`. -/
def dropNullHigherEd (t : List Record) : List Record :=
  t.filter (fun r => r.higherEducationPct.isSome)

/-- Snapshot of the UI filter widgets: the two range sliders and the
above-average-university checkbox. -/
structure FilterCriteria where
  dropoutRange : ℚ × ℚ
  illiteracyRange : ℚ × ℚ
  aboveAverageUniversityOnly : Bool
deriving DecidableEq

/-- Pandas semantics of `cell >= bound`: false when the cell is null. -/
def valGe (v : Option ℚ) (b : ℚ) : Bool :=
  match v with
  | some a => decide (b ≤ a)
  | none => false

/-- Pandas semantics of `cell <= bound`: false when the cell is null. -/
def valLe (v : Option ℚ) (b : ℚ) : Bool :=
  match v with
  | some a => decide (a ≤ b)
  | none => false

/-- Pandas semantics of `cell > threshold`: false when either side is null. -/
def optGt (v w : Option ℚ) : Bool :=
  match v, w with
  | some a, some b => decide (b < a)
  | _, _ => false

/-- The boolean mask of the two range sliders (source lines 51-55). -/
def inRanges (c : FilterCriteria) (r : Record) : Bool :=
  valGe r.dropoutPct c.dropoutRange.1 && valLe r.dropoutPct c.dropoutRange.2 &&
  valGe r.illiteracyPct c.illiteracyRange.1 && valLe r.illiteracyPct c.illiteracyRange.2

/-- Pandas column mean with `skipna`: ignore null cells, and return `none`
(NaN) when no value remains. -/
def meanOpt (vs : List (Option ℚ)) : Option ℚ :=
  if vs.filterMap id = [] then none
  else some ((vs.filterMap id).sum / ((vs.filterMap id).length : ℚ))

/-- `df['PercentageofEducationlevelofresidents-university'].mean()`
(source line 58), taken over the whole base table. -/
def averageUniversityPct (t : List Record) : Option ℚ :=
  meanOpt (t.map Record.universityPct)

/-- The optional second filter pass guarded by the checkbox
(source lines 64-67), with the threshold passed in. -/
def applyCheckbox (avg : Option ℚ) (checkbox : Bool) (l : List Record) : List Record :=
  if checkbox then l.filter (fun r => optGt r.universityPct avg) else l

/-- The full filter pipeline: the range mask, then (when the checkbox is
set) the above-average-university mask, whose threshold is the average
over the base table `t`, not over the range-filtered subset. -/
def filterTable (t : List Record) (c : FilterCriteria) : List Record :=
  applyCheckbox (averageUniversityPct t) c.aboveAverageUniversityOnly
    (t.filter (inRanges c))

/-- `x.rsplit('/', 1)[-1] if '/' in x else x` (source lines 75 and 119). -/
def normalizeKey (s : String) : String :=
  if '/' ∈ s.data then
    String.mk ((s.data.reverse.takeWhile (fun c => c ≠ '/')).reverse)
  else s

/-- Append a key to the accumulator unless it is already present. -/
def insertKey (k : String) (ks : List String) : List String :=
  if k ∈ ks then ks else ks ++ [k]

/-- The distinct keys produced by `f`, in order of first occurrence. -/
def collectKeys {α : Type} (f : α → String) (l : List α) : List String :=
  l.foldl (fun acc x => insertKey (f x) acc) []

/-- The distinct raw `refArea` keys of a table — the groupby partitions. -/
def uniqueKeys (t : List Record) : List String :=
  collectKeys Record.refArea t

/-- The rows of one groupby partition: exact match on the raw key. -/
def groupRows (t : List Record) (k : String) : List Record :=
  t.filter (fun r => r.refArea == k)

/-- One output row of a groupby-mean. -/
structure GroupedRecord where
  refArea : String
  values : List (Option ℚ)
deriving DecidableEq

/-- `groupby('refArea').mean().reset_index()`: one record per distinct raw
key, holding the mean of each requested field over that key's partition. -/
def aggregateRaw (fields : List (Record → Option ℚ)) (t : List Record) :
    List GroupedRecord :=
  (uniqueKeys t).map (fun k =>
    ⟨k, fields.map (fun f => meanOpt ((groupRows t k).map f))⟩)

/-- The two-step aggregation of the source: group on the raw key, then
normalize each group's displayed key (source lines 70-75 and 115-119). -/
def aggregate (fields : List (Record → Option ℚ)) (t : List Record) :
    List GroupedRecord :=
  (aggregateRaw fields t).map (fun g => ⟨normalizeKey g.refArea, g.values⟩)

/-- Columns selected for the scatter plot, in source order (line 70). -/
def scatterFields : List (Record → Option ℚ) :=
  [Record.illiteracyPct, Record.dropoutPct]

/-- Column selected for the box plot (line 115). -/
def boxFields : List (Record → Option ℚ) :=
  [Record.universityPct]

/-- The grouped table feeding the scatter plot (source lines 70-75). -/
def aggregateScatter (t : List Record) : List GroupedRecord :=
  aggregate scatterFields t

/-- The grouped table feeding the box plot (source lines 115-119). -/
def aggregateBox (t : List Record) : List GroupedRecord :=
  aggregate boxFields t

/-- `df_grouped[df_grouped['refArea'].isin(selected)]`
(source lines 88 and 132). -/
def project (g : List GroupedRecord) (selectedKeys : List String) :
    List GroupedRecord :=
  g.filter (fun r => selectedKeys.contains r.refArea)

/-- `df_grouped['refArea'].unique()`: the distinct normalized keys present
(source lines 83 and 127). -/
def allKeys (g : List GroupedRecord) : List String :=
  collectKeys GroupedRecord.refArea g

/-- Pandas `Series.min()` with `skipna`: `none` on an all-null column. -/
def listMin : List ℚ → Option ℚ
  | [] => none
  | x :: xs => some (xs.foldl min x)

/-- Pandas `Series.max()` with `skipna`: `none` on an all-null column. -/
def listMax : List ℚ → Option ℚ
  | [] => none
  | x :: xs => some (xs.foldl max x)

/-- The observed minimum of a column of the table (slider lower bound). -/
def colMin (f : Record → Option ℚ) (t : List Record) : Option ℚ :=
  listMin (t.filterMap f)

/-- The observed maximum of a column of the table (slider upper bound). -/
def colMax (f : Record → Option ℚ) (t : List Record) : Option ℚ :=
  listMax (t.filterMap f)

/-- A one-row table for instantiating the filter-membership claim. -/
def Tw1 : List Record := [⟨"G", some 3, some 4, some 5, some 6⟩]

/-- Criteria for `Tw1`: wide ranges, checkbox off. -/
def critW1 : FilterCriteria := ⟨(0, 10), (0, 10), false⟩

/-- Base table for the average-threshold demonstration: the range filter
removes its first row, so the base-table average (12) differs from the
average of the range-filtered subset (18). -/
def Tavg : List Record :=
  [⟨"P", some 100, some 0, some 0, some 1⟩,
   ⟨"Q", some 1, some 0, some 14, some 1⟩,
   ⟨"R", some 1, some 0, some 22, some 1⟩]

/-- Criteria for `Tavg`: the dropout slider excludes row "P", checkbox on. -/
def critAvg : FilterCriteria := ⟨(0, 50), (0, 0), true⟩

/-- Two rows whose raw keys differ but normalize to the same "X". -/
def Tcollide : List Record :=
  [⟨"A/X", some 5, some 2, some 10, some 1⟩,
   ⟨"B/X", some 15, some 8, some 30, some 1⟩]

/-- A base table with a null `dropoutPct` cell in its second row. -/
def Tnull : List Record :=
  [⟨"A", some 5, some 2, some 10, some 1⟩,
   ⟨"B", none, some 3, some 10, some 1⟩]

/-- The default criteria for `Tnull`: both ranges span the observed
min-max of their column, checkbox off. -/
def critNull : FilterCriteria := ⟨(5, 5), (2, 3), false⟩

/-- A null-free one-row table for instantiating the identity claim. -/
def Tw5 : List Record := [⟨"A", some 1, some 2, some 3, some 4⟩]

/-- The full observed ranges of `Tw5`, checkbox off. -/
def critW5 : FilterCriteria := ⟨(1, 1), (2, 2), false⟩

/-- A one-row table whose range filter keeps no row under `critNone`. -/
def Tone : List Record := [⟨"A", some 5, some 2, some 10, some 1⟩]

/-- Criteria whose dropout range misses the only row of `Tone`. -/
def critNone : FilterCriteria := ⟨(6, 7), (0, 100), false⟩

/-- The base table of the spec's worked scenario. -/
def T9 : List Record :=
  [⟨"A/X", some 5, some 2, some 10, some 0⟩,
   ⟨"A/X", some 15, some 8, some 30, some 0⟩,
   ⟨"B/Y", some 9, some 4, some 20, some 0⟩]

/-- Criteria of the worked scenario: full observed ranges, checkbox on. -/
def crit9 : FilterCriteria := ⟨(5, 15), (2, 8), true⟩

theorem filterMap_id_map_some (us : List ℚ) : (us.map some).filterMap id = us := by
  induction us with
  | nil => rfl
  | cons x xs ih => simp [ih]

theorem meanOpt_eval (vs : List (Option ℚ)) (xs : List ℚ)
    (hfm : vs.filterMap id = xs) (hne : xs ≠ []) :
    meanOpt vs = some (xs.sum / (xs.length : ℚ)) := by
  unfold meanOpt
  rw [hfm, if_neg hne]

theorem meanOpt_single (v : ℚ) : meanOpt [some v] = some v := by
  rw [meanOpt_eval [some v] [v] (by simp) (by simp)]
  norm_num

theorem mem_insertKey_self (k : String) (ks : List String) : k ∈ insertKey k ks := by
  unfold insertKey
  split
  · assumption
  · exact List.mem_append_right _ (List.mem_singleton.mpr rfl)

theorem mem_insertKey_of_mem {k : String} (k₂ : String) {ks : List String}
    (h : k ∈ ks) : k ∈ insertKey k₂ ks := by
  unfold insertKey
  split
  · exact h
  · exact List.mem_append_left _ h

theorem eq_or_mem_of_mem_insertKey {k k₂ : String} {ks : List String}
    (h : k ∈ insertKey k₂ ks) : k = k₂ ∨ k ∈ ks := by
  unfold insertKey at h
  by_cases hk : k₂ ∈ ks
  · rw [if_pos hk] at h
    exact Or.inr h
  · rw [if_neg hk] at h
    rcases List.mem_append.mp h with h1 | h2
    · exact Or.inr h1
    · exact Or.inl (List.mem_singleton.mp h2)

theorem mem_foldl_insert_of_mem_acc {α : Type} (f : α → String) {k : String} :
    ∀ (l : List α) (acc : List String), k ∈ acc →
      k ∈ l.foldl (fun a x => insertKey (f x) a) acc := by
  intro l
  induction l with
  | nil => intro acc h; exact h
  | cons x xs ih =>
    intro acc h
    exact ih (insertKey (f x) acc) (mem_insertKey_of_mem (f x) h)

theorem mem_foldl_insert {α : Type} (f : α → String) :
    ∀ (l : List α) (acc : List String) (x : α), x ∈ l →
      f x ∈ l.foldl (fun a y => insertKey (f y) a) acc := by
  intro l
  induction l with
  | nil => intro acc x h; cases h
  | cons y ys ih =>
    intro acc x h
    rcases List.mem_cons.mp h with h1 | h2
    · subst h1
      exact mem_foldl_insert_of_mem_acc f ys _ (mem_insertKey_self (f x) acc)
    · exact ih (insertKey (f y) acc) x h2

theorem mem_collectKeys_of_mem {α : Type} (f : α → String) {l : List α} {x : α}
    (hx : x ∈ l) : f x ∈ collectKeys f l :=
  mem_foldl_insert f l [] x hx

theorem exists_of_mem_foldl_insert {α : Type} (f : α → String) :
    ∀ (l : List α) (acc : List String) {k : String},
      k ∈ l.foldl (fun a y => insertKey (f y) a) acc →
        k ∈ acc ∨ ∃ x ∈ l, f x = k := by
  intro l
  induction l with
  | nil => intro acc k h; exact Or.inl h
  | cons y ys ih =>
    intro acc k h
    rcases ih (insertKey (f y) acc) h with h1 | h2
    · rcases eq_or_mem_of_mem_insertKey h1 with he | hm
      · exact Or.inr ⟨y, List.mem_cons_self y ys, he.symm⟩
      · exact Or.inl hm
    · obtain ⟨x, hx, hfx⟩ := h2
      exact Or.inr ⟨x, List.mem_cons_of_mem y hx, hfx⟩

theorem exists_of_mem_collectKeys {α : Type} (f : α → String) {l : List α}
    {k : String} (h : k ∈ collectKeys f l) : ∃ x ∈ l, f x = k := by
  rcases exists_of_mem_foldl_insert f l [] h with h1 | h2
  · cases h1
  · exact h2

theorem foldl_min_le_init : ∀ (xs : List ℚ) (x : ℚ), xs.foldl min x ≤ x := by
  intro xs
  induction xs with
  | nil => intro x; exact le_refl x
  | cons y ys ih =>
    intro x
    exact le_trans (ih (min x y)) (min_le_left x y)

theorem foldl_min_le_of_mem {a : ℚ} :
    ∀ (xs : List ℚ) (x : ℚ), a ∈ xs → xs.foldl min x ≤ a := by
  intro xs
  induction xs with
  | nil => intro x h; cases h
  | cons y ys ih =>
    intro x h
    rcases List.mem_cons.mp h with h1 | h2
    · subst h1
      exact le_trans (foldl_min_le_init ys (min x a)) (min_le_right x a)
    · exact ih (min x y) h2

theorem init_le_foldl_max : ∀ (xs : List ℚ) (x : ℚ), x ≤ xs.foldl max x := by
  intro xs
  induction xs with
  | nil => intro x; exact le_refl x
  | cons y ys ih =>
    intro x
    exact le_trans (le_max_left x y) (ih (max x y))

theorem mem_le_foldl_max {a : ℚ} :
    ∀ (xs : List ℚ) (x : ℚ), a ∈ xs → a ≤ xs.foldl max x := by
  intro xs
  induction xs with
  | nil => intro x h; cases h
  | cons y ys ih =>
    intro x h
    rcases List.mem_cons.mp h with h1 | h2
    · subst h1
      exact le_trans (le_max_right x a) (init_le_foldl_max ys (max x a))
    · exact ih (max x y) h2

theorem listMin_le {l : List ℚ} {m a : ℚ} (hm : listMin l = some m) (ha : a ∈ l) :
    m ≤ a := by
  cases l with
  | nil => cases ha
  | cons x xs =>
    have hmx : m = xs.foldl min x := by
      have h := hm
      unfold listMin at h
      exact (Option.some.inj h).symm
    subst hmx
    rcases List.mem_cons.mp ha with h1 | h2
    · subst h1
      exact foldl_min_le_init xs a
    · exact foldl_min_le_of_mem xs x h2

theorem le_listMax {l : List ℚ} {m a : ℚ} (hm : listMax l = some m) (ha : a ∈ l) :
    a ≤ m := by
  cases l with
  | nil => cases ha
  | cons x xs =>
    have hmx : m = xs.foldl max x := by
      have h := hm
      unfold listMax at h
      exact (Option.some.inj h).symm
    subst hmx
    rcases List.mem_cons.mp ha with h1 | h2
    · subst h1
      exact init_le_foldl_max xs a
    · exact mem_le_foldl_max xs x h2

theorem colMin_le {f : Record → Option ℚ} {t : List Record} {lo : ℚ}
    (h : colMin f t = some lo) {r : Record} {d : ℚ} (hr : r ∈ t)
    (hd : f r = some d) : lo ≤ d :=
  listMin_le h (List.mem_filterMap.mpr ⟨r, hr, hd⟩)

theorem le_colMax {f : Record → Option ℚ} {t : List Record} {hi : ℚ}
    (h : colMax f t = some hi) {r : Record} {d : ℚ} (hr : r ∈ t)
    (hd : f r = some d) : d ≤ hi :=
  le_listMax h (List.mem_filterMap.mpr ⟨r, hr, hd⟩)

theorem not_mem_takeWhile_ne :
    ∀ l : List Char, '/' ∉ l.takeWhile (fun c => c ≠ '/') := by
  intro l
  induction l with
  | nil => simp
  | cons c t ih =>
    by_cases hc : c = '/'
    · subst hc
      simp [List.takeWhile_cons]
    · rw [List.takeWhile_cons_of_pos (by simp [hc])]
      intro h
      rcases List.mem_cons.mp h with h1 | h2
      · exact hc h1.symm
      · exact ih h2

theorem slash_decomp :
    ∀ l : List Char, '/' ∈ l →
      ∃ q, l = l.takeWhile (fun c => c ≠ '/') ++ '/' :: q := by
  intro l
  induction l with
  | nil => intro h; cases h
  | cons c t ih =>
    intro h
    by_cases hc : c = '/'
    · subst hc
      refine ⟨t, ?_⟩
      simp [List.takeWhile_cons]
    · rw [List.takeWhile_cons_of_pos (by simp [hc])]
      have ht : '/' ∈ t := by
        rcases List.mem_cons.mp h with h1 | h2
        · exact absurd h1.symm hc
        · exact h2
      obtain ⟨q, hq⟩ := ih ht
      exact ⟨q, by rw [List.cons_append, ← hq]⟩

theorem mem_applyCheckbox {avg : Option ℚ} {b : Bool} {l : List Record} {r : Record} :
    r ∈ applyCheckbox avg b l ↔
      r ∈ l ∧ (b = false ∨ optGt r.universityPct avg = true) := by
  cases b
  · simp [applyCheckbox]
  · simp [applyCheckbox, List.mem_filter]

theorem optGt_some_iff {u : ℚ} {w : Option ℚ} :
    optGt (some u) w = true ↔ ∃ m, w = some m ∧ m < u := by
  cases w with
  | none => simp [optGt]
  | some m => simp [optGt]

theorem string_contains_iff {ks : List String} {k : String} :
    ks.contains k = true ↔ k ∈ ks :=
  List.elem_iff

/-- C1: a row of the base table with non-null cells is in the filtered
table iff its dropout and illiteracy percentages lie inside the two
ranges (inclusive on both ends) and the checkbox is off or its university
percentage is strictly greater than the base-table average. -/
theorem claim1_filter_row_membership (t : List Record) (c : FilterCriteria)
    (r : Record) (d i u : ℚ) (hd : r.dropoutPct = some d)
    (hi : r.illiteracyPct = some i) (hu : r.universityPct = some u) :
    r ∈ filterTable t c ↔
      r ∈ t ∧
        (c.dropoutRange.1 ≤ d ∧ d ≤ c.dropoutRange.2) ∧
        (c.illiteracyRange.1 ≤ i ∧ i ≤ c.illiteracyRange.2) ∧
        (c.aboveAverageUniversityOnly = false ∨
          ∃ m, averageUniversityPct t = some m ∧ m < u) := by
  unfold filterTable
  rw [mem_applyCheckbox, List.mem_filter]
  simp only [inRanges, valGe, valLe, hd, hi, hu, optGt_some_iff,
    Bool.and_eq_true, decide_eq_true_eq]
  tauto

/-- Witness for C1 at a concrete one-row table. -/
theorem claim1_filter_row_membership_witness :
    (⟨"G", some 3, some 4, some 5, some 6⟩ : Record) ∈ filterTable Tw1 critW1 ↔
      (⟨"G", some 3, some 4, some 5, some 6⟩ : Record) ∈ Tw1 ∧
        (critW1.dropoutRange.1 ≤ 3 ∧ (3 : ℚ) ≤ critW1.dropoutRange.2) ∧
        (critW1.illiteracyRange.1 ≤ 4 ∧ (4 : ℚ) ≤ critW1.illiteracyRange.2) ∧
        (critW1.aboveAverageUniversityOnly = false ∨
          ∃ m, averageUniversityPct Tw1 = some m ∧ m < 5) :=
  claim1_filter_row_membership Tw1 critW1 ⟨"G", some 3, some 4, some 5, some 6⟩
    3 4 5 rfl rfl rfl

/-- C2: the average university percentage is the arithmetic mean of the
`universityPct` column of the entire unfiltered base table; the filter
pipeline uses exactly that base-table average as its checkbox threshold;
and on `Tavg`/`critAvg` the result differs from what recomputing the
average on the range-filtered subset would give. -/
theorem claim2_average_from_base_table (t : List Record) (c : FilterCriteria)
    (us : List ℚ) (hcol : t.map Record.universityPct = us.map some)
    (hne : t ≠ []) :
    averageUniversityPct t = some (us.sum / (us.length : ℚ)) ∧
    filterTable t c =
      applyCheckbox (averageUniversityPct t) c.aboveAverageUniversityOnly
        (t.filter (inRanges c)) ∧
    filterTable Tavg critAvg ≠
      applyCheckbox (averageUniversityPct (Tavg.filter (inRanges critAvg)))
        critAvg.aboveAverageUniversityOnly (Tavg.filter (inRanges critAvg)) := by
  refine ⟨?_, rfl, ?_⟩
  · have hus : us ≠ [] := by
      intro h
      have ht : t = [] := by
        rw [h] at hcol
        simpa using hcol
      exact hne ht
    unfold averageUniversityPct
    rw [hcol]
    exact meanOpt_eval (us.map some) us (filterMap_id_map_some us) hus
  · have h1 : Tavg.filter (inRanges critAvg) =
        [⟨"Q", some 1, some 0, some 14, some 1⟩,
         ⟨"R", some 1, some 0, some 22, some 1⟩] := by decide
    have h2 : averageUniversityPct Tavg = some 12 := by
      rw [averageUniversityPct,
        meanOpt_eval (Tavg.map Record.universityPct) [0, 14, 22] (by decide) (by decide)]
      norm_num
    have h3 : averageUniversityPct
        [⟨"Q", some 1, some 0, some 14, some 1⟩,
         ⟨"R", some 1, some 0, some 22, some 1⟩] = some 18 := by
      rw [averageUniversityPct,
        meanOpt_eval _ [14, 22] (by decide) (by decide)]
      norm_num
    rw [filterTable, h1, h2, h3]
    decide

/-- Witness for C2 on the concrete table `Tavg`. -/
theorem claim2_average_from_base_table_witness :
    averageUniversityPct Tavg =
      some (([0, 14, 22] : List ℚ).sum / ((([0, 14, 22] : List ℚ).length : ℚ))) ∧
    filterTable Tavg critAvg =
      applyCheckbox (averageUniversityPct Tavg) critAvg.aboveAverageUniversityOnly
        (Tavg.filter (inRanges critAvg)) ∧
    filterTable Tavg critAvg ≠
      applyCheckbox (averageUniversityPct (Tavg.filter (inRanges critAvg)))
        critAvg.aboveAverageUniversityOnly (Tavg.filter (inRanges critAvg)) :=
  claim2_average_from_base_table Tavg critAvg [0, 14, 22] (by decide) (by decide)

/-- C3: both aggregations emit exactly one GroupedRecord per distinct raw
region key, whose values are the per-partition means of the requested
fields, and whose displayed key is normalized only afterwards; on
`Tcollide` the two raw keys "A/X" and "B/X" both display as "X" yet stay
separate records with separate means. -/
theorem claim3_aggregate_raw_key_grouping :
    (∀ t, aggregateScatter t = (uniqueKeys t).map (fun k =>
      ⟨normalizeKey k, scatterFields.map (fun f => meanOpt ((groupRows t k).map f))⟩)) ∧
    (∀ t, aggregateBox t = (uniqueKeys t).map (fun k =>
      ⟨normalizeKey k, boxFields.map (fun f => meanOpt ((groupRows t k).map f))⟩)) ∧
    (∀ t, (aggregateScatter t).length = (uniqueKeys t).length) ∧
    aggregateScatter Tcollide =
      [⟨"X", [some 2, some 5]⟩, ⟨"X", [some 8, some 15]⟩] := by
  have hs : ∀ t, aggregateScatter t = (uniqueKeys t).map (fun k =>
      ⟨normalizeKey k, scatterFields.map (fun f => meanOpt ((groupRows t k).map f))⟩) := by
    intro t
    unfold aggregateScatter aggregate aggregateRaw
    rw [List.map_map]
    rfl
  refine ⟨hs, ?_, ?_, ?_⟩
  · intro t
    unfold aggregateBox aggregate aggregateRaw
    rw [List.map_map]
    rfl
  · intro t
    rw [hs t, List.length_map]
  · rw [hs Tcollide]
    have hu : uniqueKeys Tcollide = ["A/X", "B/X"] := by decide
    have g1 : groupRows Tcollide "A/X" =
        [⟨"A/X", some 5, some 2, some 10, some 1⟩] := by decide
    have g2 : groupRows Tcollide "B/X" =
        [⟨"B/X", some 15, some 8, some 30, some 1⟩] := by decide
    rw [hu]
    simp only [List.map_cons, List.map_nil, g1, g2, scatterFields]
    norm_num [meanOpt_single]
    constructor
    · decide
    · decide

/-- C4: normalization returns the substring after the last '/' when one
is present (the result is a slash-free suffix preceded by a '/'), leaves
slash-free keys unchanged, and maps "http://example.org/Beirut" to
"Beirut" and "Beirut" to itself. -/
theorem claim4_normalize_last_segment (s : String) :
    ('/' ∈ s.data →
      ∃ p, s.data = p ++ '/' :: (normalizeKey s).data ∧
        '/' ∉ (normalizeKey s).data) ∧
    ('/' ∉ s.data → normalizeKey s = s) ∧
    normalizeKey "http://example.org/Beirut" = "Beirut" ∧
    normalizeKey "Beirut" = "Beirut" := by
  refine ⟨?_, ?_, by decide, by decide⟩
  · intro h
    have hrev : '/' ∈ s.data.reverse := List.mem_reverse.mpr h
    obtain ⟨q, hq⟩ := slash_decomp s.data.reverse hrev
    have hn : (normalizeKey s).data =
        (s.data.reverse.takeWhile (fun c => c ≠ '/')).reverse := by
      unfold normalizeKey
      rw [if_pos h]
    refine ⟨q.reverse, ?_, ?_⟩
    · rw [hn]
      calc s.data = s.data.reverse.reverse := (List.reverse_reverse _).symm
        _ = (s.data.reverse.takeWhile (fun c => c ≠ '/') ++ '/' :: q).reverse := by
              rw [← hq]
        _ = ('/' :: q).reverse ++
              (s.data.reverse.takeWhile (fun c => c ≠ '/')).reverse := by
              rw [List.reverse_append]
        _ = (q.reverse ++ ['/']) ++
              (s.data.reverse.takeWhile (fun c => c ≠ '/')).reverse := by
              rw [List.reverse_cons]
        _ = q.reverse ++ '/' ::
              (s.data.reverse.takeWhile (fun c => c ≠ '/')).reverse := by
              rw [List.append_assoc]
              rfl
    · rw [hn]
      intro hmem
      exact not_mem_takeWhile_ne s.data.reverse (List.mem_reverse.mp hmem)
  · intro h
    unfold normalizeKey
    rw [if_neg h]

/-- Witness for C4 at the concrete key "a/b". -/
theorem claim4_normalize_last_segment_witness :
    ∃ p, ("a/b" : String).data = p ++ '/' :: (normalizeKey "a/b").data ∧
      '/' ∉ (normalizeKey "a/b").data :=
  (claim4_normalize_last_segment "a/b").1 (by decide)

/-- C5 counterexample: on `Tnull`, whose second row has a null
`dropoutPct`, both ranges of `critNull` equal the full observed min-max
span of their column and the checkbox is off, yet the filter drops the
null row, so the result is not the input table. -/
theorem claim5_default_range_counterexample :
    colMin Record.dropoutPct Tnull = some critNull.dropoutRange.1 ∧
    colMax Record.dropoutPct Tnull = some critNull.dropoutRange.2 ∧
    colMin Record.illiteracyPct Tnull = some critNull.illiteracyRange.1 ∧
    colMax Record.illiteracyPct Tnull = some critNull.illiteracyRange.2 ∧
    critNull.aboveAverageUniversityOnly = false ∧
    filterTable Tnull critNull ≠ Tnull := by
  decide

/-- C5 (amended): on a base table whose dropout and illiteracy cells are
all non-null, filtering with both ranges equal to the full observed
min-max span of their column and the checkbox off returns the table
unchanged. -/
theorem claim5_default_range_identity (t : List Record) (c : FilterCriteria)
    (hvals : ∀ r ∈ t, r.dropoutPct.isSome ∧ r.illiteracyPct.isSome)
    (hcb : c.aboveAverageUniversityOnly = false)
    (hd1 : colMin Record.dropoutPct t = some c.dropoutRange.1)
    (hd2 : colMax Record.dropoutPct t = some c.dropoutRange.2)
    (hi1 : colMin Record.illiteracyPct t = some c.illiteracyRange.1)
    (hi2 : colMax Record.illiteracyPct t = some c.illiteracyRange.2) :
    filterTable t c = t := by
  unfold filterTable
  rw [hcb]
  show t.filter (inRanges c) = t
  rw [List.filter_eq_self]
  intro r hr
  obtain ⟨hdsome, hisome⟩ := hvals r hr
  obtain ⟨d, hd⟩ := Option.isSome_iff_exists.mp hdsome
  obtain ⟨i, hi⟩ := Option.isSome_iff_exists.mp hisome
  simp only [inRanges, valGe, valLe, hd, hi, Bool.and_eq_true, decide_eq_true_eq]
  exact ⟨⟨⟨colMin_le hd1 hr hd, le_colMax hd2 hr hd⟩, colMin_le hi1 hr hi⟩,
    le_colMax hi2 hr hi⟩

/-- Witness for the amended C5 on the null-free table `Tw5`. -/
theorem claim5_default_range_identity_witness :
    filterTable Tw5 critW5 = Tw5 :=
  claim5_default_range_identity Tw5 critW5 (by decide) rfl (by decide) (by decide)
    (by decide) (by decide)

/-- C6: aggregating an empty table yields the empty collection for both
charts; every groupby partition is non-empty (so no mean over an empty
partition is computed); and a filter that keeps zero rows is a valid
output whose aggregation is empty. -/
theorem claim6_empty_result_is_valid :
    aggregateScatter [] = [] ∧ aggregateBox [] = [] ∧
    (∀ t k, k ∈ uniqueKeys t → groupRows t k ≠ []) ∧
    filterTable Tone critNone = [] ∧
    aggregateScatter (filterTable Tone critNone) = [] := by
  refine ⟨rfl, rfl, ?_, by decide, by decide⟩
  intro t k hk
  obtain ⟨r, hr, hrk⟩ := exists_of_mem_collectKeys Record.refArea hk
  have hmem : r ∈ groupRows t k := by
    rw [groupRows, List.mem_filter]
    exact ⟨hr, by simp [hrk]⟩
  exact List.ne_nil_of_mem hmem

/-- Witness for C6: the one partition of `Tone` is non-empty. -/
theorem claim6_empty_result_is_valid_witness :
    groupRows Tone "A" ≠ [] :=
  claim6_empty_result_is_valid.2.2.1 Tone "A" (by decide)

/-- C7: projecting any grouped collection onto an empty selection yields
the empty collection, not "select all". -/
theorem claim7_empty_selection_empty_result (g : List GroupedRecord) :
    project g [] = [] := by
  unfold project
  rw [List.filter_eq_nil_iff]
  intro r hr
  simp

/-- C8: projecting a grouped collection onto the set of all its region
keys returns the collection itself. -/
theorem claim8_full_selection_identity (g : List GroupedRecord) :
    project g (allKeys g) = g := by
  unfold project
  rw [List.filter_eq_self]
  intro r hr
  exact string_contains_iff.mpr (mem_collectKeys_of_mem GroupedRecord.refArea hr)

/-- C9: on the spec's worked scenario `T9` with full observed ranges and
the checkbox on, the average university percentage is 20, exactly the
second row survives the filter (20 is not strictly greater than 20), and
aggregating the survivor yields the single record ("X", illiteracy 8,
dropout 15). -/
theorem claim9_worked_scenario :
    averageUniversityPct T9 = some 20 ∧
    colMin Record.dropoutPct T9 = some crit9.dropoutRange.1 ∧
    colMax Record.dropoutPct T9 = some crit9.dropoutRange.2 ∧
    colMin Record.illiteracyPct T9 = some crit9.illiteracyRange.1 ∧
    colMax Record.illiteracyPct T9 = some crit9.illiteracyRange.2 ∧
    filterTable T9 crit9 = [⟨"A/X", some 15, some 8, some 30, some 0⟩] ∧
    aggregateScatter (filterTable T9 crit9) = [⟨"X", [some 8, some 15]⟩] := by
  have havg : averageUniversityPct T9 = some 20 := by
    rw [averageUniversityPct,
      meanOpt_eval (T9.map Record.universityPct) [10, 30, 20] (by decide) (by decide)]
    norm_num
  have hfilt : filterTable T9 crit9 = [⟨"A/X", some 15, some 8, some 30, some 0⟩] := by
    rw [filterTable, havg]
    decide
  refine ⟨havg, by decide, by decide, by decide, by decide, hfilt, ?_⟩
  rw [hfilt]
  unfold aggregateScatter aggregate aggregateRaw
  have hu : uniqueKeys [⟨"A/X", some 15, some 8, some 30, some 0⟩] = ["A/X"] := by
    decide
  have hg : groupRows [⟨"A/X", some 15, some 8, some 30, some 0⟩] "A/X" =
      [⟨"A/X", some 15, some 8, some 30, some 0⟩] := by
    decide
  rw [hu]
  simp only [List.map_cons, List.map_nil, hg, scatterFields]
  norm_num [meanOpt_single]
  decide

/-- C10: the load-time null-drop keeps exactly the rows with a non-null
higher-education cell (a null dropout cell does not remove a row at
load), while any row whose dropout or illiteracy cell is null fails the
range filter for every choice of criteria. -/
theorem claim10_null_rows_never_pass :
    (∀ t r, r ∈ dropNullHigherEd t ↔ r ∈ t ∧ r.higherEducationPct.isSome = true) ∧
    (∀ t c r, (r.dropoutPct = none ∨ r.illiteracyPct = none) →
      r ∉ filterTable t c) ∧
    dropNullHigherEd [⟨"A", none, some 1, some 1, some 1⟩] =
      [⟨"A", none, some 1, some 1, some 1⟩] := by
  refine ⟨?_, ?_, by decide⟩
  · intro t r
    unfold dropNullHigherEd
    rw [List.mem_filter]
  · intro t c r h hmem
    have hmem2 : r ∈ t.filter (inRanges c) := (mem_applyCheckbox.mp hmem).1
    have htrue : inRanges c r = true := (List.mem_filter.mp hmem2).2
    rcases h with h1 | h1
    · simp [inRanges, valGe, h1] at htrue
    · simp [inRanges, valGe, valLe, h1] at htrue

/-- Witness for C10: a row with a null dropout cell never passes the
filter, even with wide ranges and the checkbox off. -/
theorem claim10_null_rows_never_pass_witness :
    (⟨"A", none, some 1, some 1, some 1⟩ : Record) ∉
      filterTable [⟨"A", none, some 1, some 1, some 1⟩] ⟨(0, 100), (0, 100), false⟩ :=
  claim10_null_rows_never_pass.2.1 _ _ _ (Or.inl rfl)

end EduApp
